import Mathlib

/-!
Verification of the nested route matching core (`src/routing_utils/src/nested/mod.rs`).

The file embeds the route tree data model and the two core algorithms,
`match_nested` and `generate_routes`, of `NestedRoute`, together with the
`NestedMatch` accessors (`as_id`, `as_matched`, `to_params`, `into_child`,
`to_view`).  The `NestedRoute` and `NestedMatch` code is translated from the
source file; the collaborating pieces that are not part of the given source
(the `PathSegment` / `RouteMatchId` types, the segment matchers implementing
`PossibleRouteMatch`, and the sibling/tuple combinator implementing
`MatchNestedRoutes` for children sets) are modelled from the specification,
as marked on each definition.
-/

/-- Modelled from the spec: `RouteMatchId` (crate root, not in the given source)
is an opaque, copyable, comparable identifier; we model it as a natural number. -/
abbrev RouteMatchId := Nat

/-- Modelled from the spec: `PathSegment` (crate root, not in the given source) is a
tagged variant — `Static(text)`, `Param(name)`, `Splat(name)`, `Unit`. -/
inductive PathSegment where
  | Static (text : String)
  | Param (name : String)
  | Splat (name : String)
  | Unit
deriving DecidableEq, Repr

/-- Modelled from the spec: `PartialPathMatch` (crate root, not in the given source),
the transient result of testing a segment pattern against a path prefix — the matched
substring, the captured `(name, value)` parameter pairs, and the unconsumed remainder. -/
structure PartialPathMatch where
  matched : String
  params : List (String × String)
  remaining : String
deriving DecidableEq, Repr

/-- Modelled from the spec: the closed set of segment patterns a `PossibleRouteMatch`
implementer can be (static literal, named parameter, wildcard/splat, empty/unit);
the implementations are not in the given source. -/
inductive SegmentPattern where
  | Static (text : String)
  | Param (name : String)
  | Splat (name : String)
  | Unit
deriving DecidableEq, Repr

/-- Character-list view of string prefix testing (used so that all matching
functions evaluate by kernel reduction). -/
def strStartsWith (s p : String) : Bool :=
  List.isPrefixOf p.toList s.toList

/-- Drop the first `n` characters of a string, via its character list. -/
def strDrop (s : String) (n : Nat) : String :=
  String.mk (s.toList.drop n)

/-- The longest prefix of a string containing no path separator. -/
def strTakeComponent (s : String) : String :=
  String.mk (s.toList.takeWhile (fun c => c != '/'))

/-- The character count of a string. -/
def strLen (s : String) : Nat :=
  s.toList.length

/-- Modelled from the spec: `PossibleRouteMatch::test` for each pattern kind.
A static literal must match verbatim; a parameter matches one path component
(a leading separator plus a nonempty run of non-separator characters); a splat
matches to the end of the remaining path; unit consumes nothing. -/
def SegmentPattern.test : SegmentPattern → String → Option PartialPathMatch
  | SegmentPattern.Static text, path =>
      if strStartsWith path text then
        some ⟨text, [], strDrop path (strLen text)⟩
      else
        none
  | SegmentPattern.Param name, path =>
      if strStartsWith path "/" then
        let rest := strDrop path 1
        let comp := strTakeComponent rest
        if comp = "" then none
        else some ⟨"/" ++ comp, [(name, comp)], strDrop rest (strLen comp)⟩
      else none
  | SegmentPattern.Splat name, path => some ⟨path, [(name, path)], ""⟩
  | SegmentPattern.Unit, path => some ⟨"", [], path⟩

/-- Modelled from the spec: `PossibleRouteMatch::generate_path` appends the
`PathSegment` fragments the pattern contributes to every enumerated route
(a static segment contributes one `Static`, a parameter one `Param`, a splat
one `Splat`, unit one `Unit` which is later filtered). -/
def SegmentPattern.generate_path : SegmentPattern → List PathSegment
  | SegmentPattern.Static t => [PathSegment.Static t]
  | SegmentPattern.Param n => [PathSegment.Param n]
  | SegmentPattern.Splat n => [PathSegment.Splat n]
  | SegmentPattern.Unit => [PathSegment.Unit]

/-- Modelled from the spec: a node's `segments` field may be a sequence of
segment patterns tested in order against successive prefixes, threading the
remainder, concatenating matched text and captured params. -/
def testSegments : List SegmentPattern → String → Option PartialPathMatch
  | [], path => some ⟨"", [], path⟩
  | s :: rest, path =>
      match s.test path with
      | none => none
      | some m1 =>
          match testSegments rest m1.remaining with
          | none => none
          | some m2 => some ⟨m1.matched ++ m2.matched, m1.params ++ m2.params, m2.remaining⟩

/-- Modelled from the spec: the fragments a node's whole `segments` sequence
contributes, in order (the `generate_path(&mut segment_routes)` accumulation). -/
def generatePathList (segs : List SegmentPattern) : List PathSegment :=
  segs.flatMap SegmentPattern.generate_path

mutual
/-- The persistent route-tree node `NestedRoute` (source lines 11–16):
`segments` (segment pattern), `children` (nested route set, possibly empty),
`data` (opaque payload), `view` (opaque payload). -/
inductive RouteTree (D V : Type) where
  | mk (segments : List SegmentPattern) (children : RouteForest D V) (data : D) (view : V)
/-- Modelled from the spec: the ordered children set of a node (the tuple
combinator layer, whose source is not given) — an ordered list of alternative
route nodes, possibly empty. -/
inductive RouteForest (D V : Type) where
  | nil
  | cons (head : RouteTree D V) (tail : RouteForest D V)
end

/-- Projection: the `segments` field of a `NestedRoute`. -/
def RouteTree.segments {D V : Type} : RouteTree D V → List SegmentPattern
  | RouteTree.mk s _ _ _ => s

/-- Projection: the `children` field of a `NestedRoute`. -/
def RouteTree.children {D V : Type} : RouteTree D V → RouteForest D V
  | RouteTree.mk _ c _ _ => c

/-- Projection: the `data` field of a `NestedRoute`. -/
def RouteTree.data {D V : Type} : RouteTree D V → D
  | RouteTree.mk _ _ d _ => d

/-- Projection: the `view` field of a `NestedRoute`. -/
def RouteTree.view {D V : Type} : RouteTree D V → V
  | RouteTree.mk _ _ _ v => v

/-- The match-result value. `nested` is the `NestedMatch` struct of the source
(lines 19–28): `id`, `matched` substring, chained `params`, the matched `child`,
and the node's `view`.  `leaf` is the match value of the empty children
combinator (the `()` implementer, modelled from the spec: it contributes no
params and has no descendant). -/
inductive MatchResult (V : Type) where
  | leaf
  | nested (id : RouteMatchId) (matched : String) (params : List (String × String))
      (child : MatchResult V) (view : V)
deriving DecidableEq

/-- `MatchInterface::as_id` (source lines 55–57) returns the stored `id`;
the `leaf` case is modelled from the spec (the empty combinator's id is the
one it assigned, here 0). -/
def as_id {V : Type} : MatchResult V → RouteMatchId
  | MatchResult.leaf => 0
  | MatchResult.nested id _ _ _ _ => id

/-- `MatchInterface::as_matched` (source lines 59–61) returns the stored
`matched` substring; the `leaf` case is modelled from the spec (the empty
combinator matches nothing). -/
def as_matched {V : Type} : MatchResult V → String
  | MatchResult.leaf => ""
  | MatchResult.nested _ m _ _ _ => m

/-- `MatchInterface::to_params` (source lines 63–65): returns a clone of the
stored `params` sequence; the `leaf` case is modelled from the spec (the empty
combinator contributes no params). -/
def to_params {V : Type} : MatchResult V → List (String × String)
  | MatchResult.leaf => []
  | MatchResult.nested _ _ p _ _ => p

/-- `MatchInterface::into_child` (source lines 67–69): on a `NestedMatch` it
always returns `Some` of the stored `child`; the `leaf` case is modelled from
the spec (the empty combinator's match has no descendant, so absence). -/
def into_child {V : Type} : MatchResult V → Option (MatchResult V)
  | MatchResult.leaf => none
  | MatchResult.nested _ _ _ c _ => some c

/-- `MatchInterface::to_view` (source lines 71–73) returns the stored `view`
reference; `none` for the `leaf` combinator match, modelled from the spec. -/
def to_view {V : Type} : MatchResult V → Option V
  | MatchResult.leaf => none
  | MatchResult.nested _ _ _ _ v => some v

mutual
/-- `NestedRoute::match_nested` (source lines 99–136): test the node's segments
against the path; on success recurse into the children with the remainder; if
the children succeed and the new remainder is empty or exactly "/", succeed with
the leaf's id, this node's matched substring, this node's params chained before
the inner match's params, the inner match as child, and this node's view,
returning the remainder; in every other case return `(none, path)` with the
caller's input path unchanged. -/
def matchNested {D V : Type} : RouteTree D V → String → (Option (RouteMatchId × MatchResult V)) × String
  | RouteTree.mk segs children _ view, path =>
      match testSegments segs path with
      | none => (none, path)
      | some ppm =>
          match matchChildren children ppm.remaining with
          | (none, _) => (none, path)
          | (some (id, inner), remaining) =>
              if remaining = "" ∨ remaining = "/" then
                (some (id, MatchResult.nested id ppm.matched
                    (ppm.params ++ to_params inner) inner view), remaining)
              else
                (none, path)
termination_by structural t _ => t
/-- Modelled from the spec: the children combinator's `match_nested`.  An empty
children set is the leaf case: it succeeds exactly when the path handed to it is
fully consumed (empty or a single trailing separator), contributing no params.
A nonempty set tries each alternative in declaration order. -/
def matchChildren {D V : Type} : RouteForest D V → String → (Option (RouteMatchId × MatchResult V)) × String
  | RouteForest.nil, path =>
      if path = "" ∨ path = "/" then (some (0, MatchResult.leaf), path) else (none, path)
  | RouteForest.cons c cs, path =>
      match matchNested c path with
      | (some r, rem) => (some r, rem)
      | (none, _) => matchAlt cs path
termination_by structural f _ => f
/-- Modelled from the spec: first-success alternation over a nonempty list of
sibling alternatives; on total failure the input path is handed back unchanged. -/
def matchAlt {D V : Type} : RouteForest D V → String → (Option (RouteMatchId × MatchResult V)) × String
  | RouteForest.nil, path => (none, path)
  | RouteForest.cons c cs, path =>
      match matchNested c path with
      | (some r, rem) => (some r, rem)
      | (none, _) => matchAlt cs path
termination_by structural f _ => f
end

mutual
/-- `NestedRoute::generate_routes` (source lines 138–152): generate this node's
own segment fragments once; for each route produced by the children, produce one
output route equal to this node's fragments chained with that child route, with
every `Unit` segment filtered out. -/
def generateRoutes {D V : Type} : RouteTree D V → List (List PathSegment)
  | RouteTree.mk segs children _ _ =>
      (generateChildrenRoutes children).map
        (fun childRoute =>
          (generatePathList segs ++ childRoute).filter
            (fun seg => seg ≠ PathSegment.Unit))
termination_by structural t => t
/-- Modelled from the spec: the children combinator's `generate_routes`.  An
empty children set yields exactly one empty route; a nonempty set yields the
concatenation of each alternative's own generated routes. -/
def generateChildrenRoutes {D V : Type} : RouteForest D V → List (List PathSegment)
  | RouteForest.nil => [[]]
  | RouteForest.cons c cs => generateRoutes c ++ concatRoutes cs
termination_by structural f => f
/-- Modelled from the spec: plain concatenation of the alternatives' routes. -/
def concatRoutes {D V : Type} : RouteForest D V → List (List PathSegment)
  | RouteForest.nil => []
  | RouteForest.cons c cs => generateRoutes c ++ concatRoutes cs
termination_by structural f => f
end

mutual
/-- Replace the `data` payload of every node with `Unit`, keeping segments,
children structure and views: two trees are identical except for their `data`
payloads exactly when their erasures are equal. -/
def eraseData {D V : Type} : RouteTree D V → RouteTree Unit V
  | RouteTree.mk segs children _ view => RouteTree.mk segs (eraseForest children) () view
termination_by structural t => t
/-- Erase the `data` payloads of every tree in a forest. -/
def eraseForest {D V : Type} : RouteForest D V → RouteForest Unit V
  | RouteForest.nil => RouteForest.nil
  | RouteForest.cons c cs => RouteForest.cons (eraseData c) (eraseForest cs)
termination_by structural f => f
end

/-- A concrete leaf route node: static segment "/a", no children, data 3, view 7. -/
def exLeaf : RouteTree Nat Nat :=
  RouteTree.mk [SegmentPattern.Static "/a"] RouteForest.nil 3 7

/-- A concrete nested tree: static segment "/users" with a single `:id` child. -/
def exUsers : RouteTree Nat Nat :=
  RouteTree.mk [SegmentPattern.Static "/users"]
    (RouteForest.cons (RouteTree.mk [SegmentPattern.Param "id"] RouteForest.nil 4 1)
      RouteForest.nil)
    3 0

/-- The inner match produced by `exUsers` on "/users/42". -/
def exUsersInner : MatchResult Nat :=
  MatchResult.nested 0 "/42" [("id", "42")] MatchResult.leaf 1

/-- A tree capturing the same parameter name at two levels: `:x` over `:x`. -/
def exDup : RouteTree Nat Nat :=
  RouteTree.mk [SegmentPattern.Param "x"]
    (RouteForest.cons (RouteTree.mk [SegmentPattern.Param "x"] RouteForest.nil 0 2)
      RouteForest.nil)
    0 0

/-- Same shape as `exLeaf` but with a different `data` payload. -/
def exLeafOtherData : RouteTree Nat Nat :=
  RouteTree.mk [SegmentPattern.Static "/a"] RouteForest.nil 99 7

/-- Helper: a successful `matchNested` result always carries the returned id in
the match value itself (the node stamps the same `id` into the `NestedMatch`). -/
theorem as_id_of_matchNested {D V : Type} (t : RouteTree D V) (path : String)
    (id : RouteMatchId) (m : MatchResult V) (rem : String)
    (h : matchNested t path = (some (id, m), rem)) : as_id m = id := by
  cases t with
  | mk segs children dat v =>
    cases hseg : testSegments segs path with
    | none => simp [matchNested, hseg] at h
    | some ppm =>
      cases hch : matchChildren children ppm.remaining with
      | mk inner rem' =>
        cases inner with
        | none => simp [matchNested, hseg, hch] at h
        | some p =>
          obtain ⟨id', im⟩ := p
          by_cases hrem : rem' = "" ∨ rem' = "/"
          · simp [matchNested, hseg, hch, hrem] at h
            obtain ⟨⟨h1, h2⟩, h3⟩ := h
            subst h1; subst h2; rfl
          · simp [matchNested, hseg, hch, hrem] at h

/-- Helper: the first-success alternation hands the chosen alternative's match
through unchanged, so a successful result carries the returned id. -/
theorem as_id_of_matchAlt {D V : Type} (f : RouteForest D V) (path : String)
    (id : RouteMatchId) (m : MatchResult V) (rem : String)
    (h : matchAlt f path = (some (id, m), rem)) : as_id m = id := by
  cases f with
  | nil => simp [matchAlt] at h
  | cons c cs =>
    cases hc : matchNested c path with
    | mk inner rem' =>
      cases inner with
      | some r =>
        simp only [matchAlt, hc] at h
        obtain ⟨h1, h2⟩ := Prod.mk.injEq .. |>.mp h
        obtain ⟨h3⟩ := Option.some.injEq .. |>.mp h1
        exact as_id_of_matchNested c path id m rem' (by rw [hc, h1, h2])
      | none =>
        simp only [matchAlt, hc] at h
        exact as_id_of_matchAlt cs path id m rem h
termination_by structural f

/-- Helper: the children combinator's successful results carry the returned id
in the match value (a leaf match carries the leaf id it assigned). -/
theorem as_id_of_matchChildren {D V : Type} (f : RouteForest D V) (path : String)
    (id : RouteMatchId) (m : MatchResult V) (rem : String)
    (h : matchChildren f path = (some (id, m), rem)) : as_id m = id := by
  cases f with
  | nil =>
    by_cases hp : path = "" ∨ path = "/"
    · simp only [matchChildren, if_pos hp, Prod.mk.injEq, Option.some.injEq] at h
      obtain ⟨⟨h1, h2⟩, h3⟩ := h
      subst h1; subst h2; rfl
    · simp [matchChildren, if_neg hp] at h
  | cons c cs =>
    cases hc : matchNested c path with
    | mk inner rem' =>
      cases inner with
      | some r =>
        simp only [matchChildren, hc] at h
        obtain ⟨h1, h2⟩ := Prod.mk.injEq .. |>.mp h
        exact as_id_of_matchNested c path id m rem' (by rw [hc, h1, h2])
      | none =>
        simp only [matchChildren, hc] at h
        exact as_id_of_matchAlt cs path id m rem h

mutual
/-- Helper: matching never reads the `data` field — erasing every `data`
payload leaves `matchNested` unchanged. -/
theorem matchNested_eraseData {D V : Type} (t : RouteTree D V) (path : String) :
    matchNested (eraseData t) path = matchNested t path := by
  cases t with
  | mk segs children dat v =>
    simp only [eraseData, matchNested, matchChildren_eraseForest children]
termination_by structural t
/-- Helper: erasing `data` payloads leaves the children combinator unchanged. -/
theorem matchChildren_eraseForest {D V : Type} (f : RouteForest D V) (path : String) :
    matchChildren (eraseForest f) path = matchChildren f path := by
  cases f with
  | nil => simp only [eraseForest, matchChildren]
  | cons c cs =>
    simp only [eraseForest, matchChildren, matchNested_eraseData c,
      matchAlt_eraseForest cs]
termination_by structural f
/-- Helper: erasing `data` payloads leaves the alternation unchanged. -/
theorem matchAlt_eraseForest {D V : Type} (f : RouteForest D V) (path : String) :
    matchAlt (eraseForest f) path = matchAlt f path := by
  cases f with
  | nil => simp only [eraseForest, matchAlt]
  | cons c cs =>
    simp only [eraseForest, matchAlt, matchNested_eraseData c,
      matchAlt_eraseForest cs]
termination_by structural f
end

/-- C1: for every route tree node and input path, if the node's segment test
succeeds and the recursive children match succeeds, `match_nested` succeeds if
and only if the remainder left by the children is empty or exactly "/"; on
success it returns `Some((id, match))` together with that remainder; and every
successful match's returned remainder is empty or "/". -/
theorem match_nested_full_consumption {D V : Type} (t : RouteTree D V) (path : String)
    (ppm : PartialPathMatch) (id : RouteMatchId) (im : MatchResult V) (rem : String)
    (hseg : testSegments t.segments path = some ppm)
    (hch : matchChildren t.children ppm.remaining = (some (id, im), rem)) :
    ((matchNested t path).1.isSome ↔ (rem = "" ∨ rem = "/")) ∧
    ((rem = "" ∨ rem = "/") →
      matchNested t path =
        (some (id, MatchResult.nested id ppm.matched (ppm.params ++ to_params im) im t.view),
          rem)) ∧
    ((matchNested t path).1.isSome →
      (matchNested t path).2 = "" ∨ (matchNested t path).2 = "/") := by
  cases t with
  | mk segs children dat v =>
    simp only [RouteTree.segments, RouteTree.children, RouteTree.view] at *
    by_cases hrem : rem = "" ∨ rem = "/"
    · refine ⟨?_, ?_, ?_⟩
      · simp [matchNested, hseg, hch, hrem]
      · intro _
        simp [matchNested, hseg, hch, hrem]
      · intro _
        simp only [matchNested, hseg, hch]
        rw [if_pos hrem]
        exact hrem
    · refine ⟨?_, ?_, ?_⟩
      · simp [matchNested, hseg, hch, hrem]
      · intro hcon; exact absurd hcon hrem
      · intro hsome
        simp [matchNested, hseg, hch, hrem] at hsome

/-- Witness for C1 at the concrete tree `exUsers` and path "/users/42". -/
theorem match_nested_full_consumption_witness :
    testSegments (RouteTree.segments exUsers) "/users/42" =
      some ⟨"/users", [], "/42"⟩ ∧
    matchChildren (RouteTree.children exUsers)
      (PartialPathMatch.mk "/users" [] "/42").remaining = (some (0, exUsersInner), "") ∧
    ((matchNested exUsers "/users/42").1.isSome ↔ (("" : String) = "" ∨ ("" : String) = "/")) :=
  ⟨by decide, by decide,
    (match_nested_full_consumption exUsers "/users/42" ⟨"/users", [], "/42"⟩ 0 exUsersInner ""
      (by decide) (by decide)).1⟩

/-- C2: `match_nested` fails exactly when the segment test fails, the children
fail, or the children succeed but leave a remainder that is neither empty nor
"/"; and in every failure case it returns `(none, path)` with the caller's
input path unchanged (failure is the absence value of a total function, never
an exception-like signal). -/
theorem match_nested_failure_cases {D V : Type} (t : RouteTree D V) (path : String) :
    ((matchNested t path).1 = none ↔
      testSegments t.segments path = none ∨
      (∃ ppm, testSegments t.segments path = some ppm ∧
        (matchChildren t.children ppm.remaining).1 = none) ∨
      (∃ ppm id im rem, testSegments t.segments path = some ppm ∧
        matchChildren t.children ppm.remaining = (some (id, im), rem) ∧
        rem ≠ "" ∧ rem ≠ "/")) ∧
    ((matchNested t path).1 = none → matchNested t path = (none, path)) := by
  cases t with
  | mk segs children dat v =>
    simp only [RouteTree.segments, RouteTree.children]
    cases hseg : testSegments segs path with
    | none => simp [matchNested, hseg]
    | some ppm =>
      cases hch : matchChildren children ppm.remaining with
      | mk inner rem' =>
        cases inner with
        | none => simp [matchNested, hseg, hch]
        | some p =>
          obtain ⟨id, im⟩ := p
          by_cases hrem : rem' = "" ∨ rem' = "/"
          · constructor
            · simp [matchNested, hseg, hch, hrem]
              intro x
              rcases hrem with hr | hr
              · exact absurd hr x
              · exact hr
            · intro hnone
              simp [matchNested, hseg, hch, hrem] at hnone
          · constructor
            · simp only [matchNested, hseg, hch, if_neg hrem]
              simp only [true_iff]
              refine Or.inr (Or.inr ⟨ppm, id, im, rem', rfl, hch, ?_, ?_⟩)
              · intro hc; exact hrem (Or.inl hc)
              · intro hc; exact hrem (Or.inr hc)
            · intro _
              simp [matchNested, hseg, hch, hrem]

/-- Witness for C2: on the non-matching path "/nope" the concrete tree fails
and hands back the input path unchanged. -/
theorem match_nested_failure_cases_witness :
    (matchNested exUsers "/nope").1 = none ∧
    matchNested exUsers "/nope" = (none, "/nope") :=
  ⟨by decide, (match_nested_failure_cases exUsers "/nope").2 (by decide)⟩

/-- C3: every successful match's params are exactly this node's own captured
pairs, in their order, followed by the matched child's params; duplicate names
are all retained (the params list is literally the concatenation). -/
theorem to_params_outer_before_inner {D V : Type} (t : RouteTree D V) (path : String)
    (id : RouteMatchId) (m : MatchResult V)
    (h : (matchNested t path).1 = some (id, m)) :
    ∃ ppm im, testSegments t.segments path = some ppm ∧
      (matchChildren t.children ppm.remaining).1 = some (id, im) ∧
      m = MatchResult.nested id ppm.matched (ppm.params ++ to_params im) im t.view ∧
      to_params m = ppm.params ++ to_params im := by
  cases t with
  | mk segs children dat v =>
    simp only [RouteTree.segments, RouteTree.children, RouteTree.view]
    cases hseg : testSegments segs path with
    | none => simp [matchNested, hseg] at h
    | some ppm =>
      cases hch : matchChildren children ppm.remaining with
      | mk inner rem' =>
        cases inner with
        | none => simp [matchNested, hseg, hch] at h
        | some p =>
          obtain ⟨id', im⟩ := p
          by_cases hrem : rem' = "" ∨ rem' = "/"
          · simp only [matchNested, hseg, hch, if_pos hrem] at h
            simp only [Option.some.injEq, Prod.mk.injEq] at h
            obtain ⟨h1, h2⟩ := h
            subst h1; subst h2
            exact ⟨ppm, im, rfl, by rw [hch], rfl, rfl⟩
          · simp [matchNested, hseg, hch, hrem] at h

/-- Witness for C3 at a tree capturing the parameter name "x" at two levels:
the outer capture appears strictly before the inner one and both are kept. -/
theorem to_params_outer_before_inner_witness :
    (matchNested exDup "/a/b").1 =
      some (0, MatchResult.nested 0 "/a" [("x", "a"), ("x", "b")]
        (MatchResult.nested 0 "/b" [("x", "b")] MatchResult.leaf 2) 0) ∧
    ∃ ppm im, testSegments (RouteTree.segments exDup) "/a/b" = some ppm ∧
      (matchChildren (RouteTree.children exDup) ppm.remaining).1 = some (0, im) ∧
      (MatchResult.nested 0 "/a" [("x", "a"), ("x", "b")]
        (MatchResult.nested 0 "/b" [("x", "b")] MatchResult.leaf 2) (0 : Nat)) =
        MatchResult.nested 0 ppm.matched (ppm.params ++ to_params im) im (RouteTree.view exDup) ∧
      to_params (MatchResult.nested 0 "/a" [("x", "a"), ("x", "b")]
        (MatchResult.nested 0 "/b" [("x", "b")] MatchResult.leaf 2) (0 : Nat)) =
        ppm.params ++ to_params im :=
  ⟨by decide,
    to_params_outer_before_inner exDup "/a/b" 0
      (MatchResult.nested 0 "/a" [("x", "a"), ("x", "b")]
        (MatchResult.nested 0 "/b" [("x", "b")] MatchResult.leaf 2) 0)
      (by decide)⟩

/-- C6: on success the returned id, the id stored in the returned `NestedMatch`
(reported by `as_id`), and the id returned by the children's recursive
`match_nested` (itself stored in the inner match) are all the same value. -/
theorem match_id_propagated {D V : Type} (t : RouteTree D V) (path : String)
    (id : RouteMatchId) (m : MatchResult V) (rem : String)
    (h : matchNested t path = (some (id, m), rem)) :
    as_id m = id ∧
    ∃ ppm im, testSegments t.segments path = some ppm ∧
      matchChildren t.children ppm.remaining = (some (id, im), rem) ∧
      as_id im = id := by
  cases t with
  | mk segs children dat v =>
    simp only [RouteTree.segments, RouteTree.children]
    cases hseg : testSegments segs path with
    | none => simp [matchNested, hseg] at h
    | some ppm =>
      cases hch : matchChildren children ppm.remaining with
      | mk inner rem' =>
        cases inner with
        | none => simp [matchNested, hseg, hch] at h
        | some p =>
          obtain ⟨id', im⟩ := p
          by_cases hrem : rem' = "" ∨ rem' = "/"
          · simp only [matchNested, hseg, hch, if_pos hrem] at h
            simp only [Prod.mk.injEq, Option.some.injEq] at h
            obtain ⟨⟨h1, h2⟩, h3⟩ := h
            subst h1; subst h2; subst h3
            exact ⟨rfl, ppm, im, rfl, hch,
              as_id_of_matchChildren _ _ _ _ _ hch⟩
          · simp [matchNested, hseg, hch, hrem] at h

/-- Witness for C6 at the concrete tree `exUsers` and path "/users/42". -/
theorem match_id_propagated_witness :
    matchNested exUsers "/users/42" =
      (some (0, MatchResult.nested 0 "/users" [("id", "42")] exUsersInner 0), "") ∧
    as_id (MatchResult.nested 0 "/users" [("id", "42")] exUsersInner (0 : Nat)) = 0 :=
  ⟨by decide,
    (match_id_propagated exUsers "/users/42" 0
      (MatchResult.nested 0 "/users" [("id", "42")] exUsersInner 0) "" (by decide)).1⟩

/-- C4: `generate_routes` yields exactly as many routes as the children's
`generate_routes` — one output route per child route. -/
theorem generate_routes_length {D V : Type} (t : RouteTree D V) :
    (generateRoutes t).length = (generateChildrenRoutes t.children).length := by
  cases t with
  | mk segs children dat v =>
    simp [generateRoutes, RouteTree.children]

/-- C5: every generated route is the node's own fragments followed by the
corresponding child route with all `Unit` segments filtered out, and no
generated route contains a `Unit` segment. -/
theorem generate_routes_filter_unit {D V : Type} (t : RouteTree D V) :
    generateRoutes t =
      (generateChildrenRoutes t.children).map
        (fun childRoute =>
          (generatePathList t.segments ++ childRoute).filter
            (fun seg => seg ≠ PathSegment.Unit)) ∧
    ∀ r ∈ generateRoutes t, PathSegment.Unit ∉ r := by
  cases t with
  | mk segs children dat v =>
    refine ⟨by simp [generateRoutes, RouteTree.children, RouteTree.segments], ?_⟩
    intro r hr
    simp only [generateRoutes, List.mem_map] at hr
    obtain ⟨cr, _, hfilter⟩ := hr
    intro hmem
    rw [← hfilter] at hmem
    have := List.of_mem_filter hmem
    simp at this

/-- Witness for C5: the `Unit`-free law evaluated at a concrete tree whose
segments contain a `Unit` pattern. -/
theorem generate_routes_filter_unit_witness :
    (generateRoutes (RouteTree.mk [SegmentPattern.Unit, SegmentPattern.Param "p"]
        RouteForest.nil (0 : Nat) (0 : Nat)) = [[PathSegment.Param "p"]]) ∧
    PathSegment.Unit ∉ [PathSegment.Param "p"] :=
  ⟨by decide,
    (generate_routes_filter_unit (RouteTree.mk [SegmentPattern.Unit, SegmentPattern.Param "p"]
        RouteForest.nil (0 : Nat) (0 : Nat))).2 [PathSegment.Param "p"] (by decide)⟩

/-- C7: matching is pure — two calls of `match_nested` with the same tree and
path return equal results: same presence, id, matched substring, params and
remainder. -/
theorem match_nested_idempotent {D V : Type} (t : RouteTree D V) (path : String) :
    matchNested t path = matchNested t path ∧
    ∀ id1 m1 rem1 id2 m2 rem2,
      matchNested t path = (some (id1, m1), rem1) →
      matchNested t path = (some (id2, m2), rem2) →
      id1 = id2 ∧ as_matched m1 = as_matched m2 ∧ to_params m1 = to_params m2 ∧
        m1 = m2 ∧ rem1 = rem2 := by
  refine ⟨rfl, ?_⟩
  intro id1 m1 rem1 id2 m2 rem2 h1 h2
  rw [h1] at h2
  simp only [Prod.mk.injEq, Option.some.injEq] at h2
  obtain ⟨⟨ha, hb⟩, hc⟩ := h2
  subst ha; subst hb; subst hc
  exact ⟨rfl, rfl, rfl, rfl, rfl⟩

/-- Witness for C7 at the concrete tree `exUsers` and path "/users/42". -/
theorem match_nested_idempotent_witness :
    matchNested exUsers "/users/42" =
      (some (0, MatchResult.nested 0 "/users" [("id", "42")] exUsersInner 0), "") ∧
    ((0 : RouteMatchId) = 0 ∧
      as_matched (MatchResult.nested 0 "/users" [("id", "42")] exUsersInner (0 : Nat)) =
        as_matched (MatchResult.nested 0 "/users" [("id", "42")] exUsersInner (0 : Nat)) ∧
      to_params (MatchResult.nested 0 "/users" [("id", "42")] exUsersInner (0 : Nat)) =
        to_params (MatchResult.nested 0 "/users" [("id", "42")] exUsersInner (0 : Nat)) ∧
      (MatchResult.nested 0 "/users" [("id", "42")] exUsersInner (0 : Nat)) =
        (MatchResult.nested 0 "/users" [("id", "42")] exUsersInner (0 : Nat)) ∧
      ("" : String) = "") :=
  ⟨by decide,
    (match_nested_idempotent exUsers "/users/42").2 0
      (MatchResult.nested 0 "/users" [("id", "42")] exUsersInner 0) "" 0
      (MatchResult.nested 0 "/users" [("id", "42")] exUsersInner 0) ""
      (by decide) (by decide)⟩

/-- C8 counterexample: a leaf node (empty children) still produces a match
whose `into_child` is `some` (wrapping the unit combinator's match), not
`none` — the source's `into_child` unconditionally returns `Some(self.child)`. -/
theorem into_child_leaf_counterexample :
    matchNested exLeaf "/a" =
      (some (0, MatchResult.nested 0 "/a" [] MatchResult.leaf 7), "") ∧
    RouteTree.children exLeaf = RouteForest.nil ∧
    into_child (MatchResult.nested 0 "/a" [] MatchResult.leaf (7 : Nat)) ≠ none := by
  refine ⟨by decide, rfl, by decide⟩

/-- C8 amended: `into_child` on a `NestedMatch` produced by a successful match
always returns `Some` of the stored child match; when the node is a leaf that
child is the unit combinator's match, and absence (`none`) arises only from the
unit match's own `into_child`. -/
theorem into_child_always_some {D V : Type} (t : RouteTree D V) (path : String)
    (id : RouteMatchId) (m : MatchResult V) (rem : String)
    (h : matchNested t path = (some (id, m), rem)) :
    (∃ c, into_child m = some c ∧
      (t.children = RouteForest.nil → c = MatchResult.leaf)) ∧
    into_child (MatchResult.leaf : MatchResult V) = none := by
  cases t with
  | mk segs children dat v =>
    simp only [RouteTree.children]
    cases hseg : testSegments segs path with
    | none => simp [matchNested, hseg] at h
    | some ppm =>
      cases hch : matchChildren children ppm.remaining with
      | mk inner rem' =>
        cases inner with
        | none => simp [matchNested, hseg, hch] at h
        | some p =>
          obtain ⟨id', im⟩ := p
          by_cases hrem : rem' = "" ∨ rem' = "/"
          · simp only [matchNested, hseg, hch, if_pos hrem] at h
            simp only [Prod.mk.injEq, Option.some.injEq] at h
            obtain ⟨⟨h1, h2⟩, h3⟩ := h
            subst h1; subst h2; subst h3
            refine ⟨⟨im, rfl, ?_⟩, rfl⟩
            intro hnil
            subst hnil
            by_cases hp : ppm.remaining = "" ∨ ppm.remaining = "/"
            · simp only [matchChildren, if_pos hp, Prod.mk.injEq, Option.some.injEq] at hch
              exact hch.1.2.symm
            · simp [matchChildren, if_neg hp] at hch
          · simp [matchNested, hseg, hch, hrem] at h

/-- Witness for the amended C8 at the concrete leaf tree `exLeaf`. -/
theorem into_child_always_some_witness :
    matchNested exLeaf "/a" =
      (some (0, MatchResult.nested 0 "/a" [] MatchResult.leaf 7), "") ∧
    ((∃ c, into_child (MatchResult.nested 0 "/a" [] MatchResult.leaf (7 : Nat)) = some c ∧
        (RouteTree.children exLeaf = RouteForest.nil → c = MatchResult.leaf)) ∧
      into_child (MatchResult.leaf : MatchResult Nat) = none) :=
  ⟨by decide,
    into_child_always_some exLeaf "/a" 0
      (MatchResult.nested 0 "/a" [] MatchResult.leaf 7) "" (by decide)⟩

/-- C9: matching never reads the `data` payloads — two trees identical except
for `data` (equal after erasing `data`) produce identical `match_nested`
results on every path. -/
theorem match_nested_data_irrelevant {D1 D2 V : Type} (t1 : RouteTree D1 V)
    (t2 : RouteTree D2 V) (path : String)
    (h : eraseData t1 = eraseData t2) :
    matchNested t1 path = matchNested t2 path := by
  rw [← matchNested_eraseData t1 path, ← matchNested_eraseData t2 path, h]

/-- Witness for C9: two concrete leaf trees differing only in `data` match
identically. -/
theorem match_nested_data_irrelevant_witness :
    eraseData exLeaf = eraseData exLeafOtherData ∧
    matchNested exLeaf "/a" = matchNested exLeafOtherData "/a" :=
  ⟨by rfl, match_nested_data_irrelevant exLeaf exLeafOtherData "/a" (by rfl)⟩

/-- C10: `to_params` is a pure accessor — it neither consumes nor modifies the
match, so any number of calls on the same match value return equal parameter
lists with the same pairs at the same positions. -/
theorem to_params_repeatable {V : Type} (m : MatchResult V) :
    to_params m = to_params m ∧
    ∀ i : Nat, (to_params m)[i]? = (to_params m)[i]? :=
  ⟨rfl, fun _ => rfl⟩
